import Mathlib

/-!
A verification development for the reverse-proxy rewrite engine and the
socket layer of tinyproxy, shallowly embedded from `src/reverse-proxy.c`
and `src/sock.c`.  C strings are modelled as `List Char`; NULL-able
pointers as `Option`; the external collaborators (header hashmap, name
resolution, system calls) as explicit parameters describing their
outcomes for the call at hand.
-/

namespace Tinyproxy

/-- The index of the first occurrence of `needle` in `hay`, as C `strstr`
computes it (`strstr (hay, needle) == hay` iff the result here is
`some 0`); `none` models a NULL return. -/
def strstr_index (hay needle : List Char) : Option Nat :=
  if needle.isPrefixOf hay then some 0
  else
    match hay with
    | [] => none
    | _ :: t => (strstr_index t needle).map (· + 1)

/-- One entry of the reverse-path rule list (`struct reversepath`):
a URL path and the backend base URL it maps to. -/
structure Reversepath where
  path : List Char
  url : List Char
deriving DecidableEq

/-- The `"://"` scheme separator checked by `reversepath_add`. -/
def schemeSep : List Char := [':', '/', '/']

/-- `reversepath_add` from `reverse-proxy.c`: validates the inputs and on
success prepends the rule to the list (`config.reversepath_list`).
`none` arguments model NULL pointers. -/
def reversepath_add (lst : List Reversepath)
    (path url : Option (List Char)) : List Reversepath :=
  match url with
  | none => lst
  | some u =>
    if (strstr_index u schemeSep).isNone then lst
    else
      match path with
      | some p => if p.head? ≠ some '/' then lst else ⟨p, u⟩ :: lst
      | none => ⟨['/'], u⟩ :: lst

/-- `reversepath_get` from `reverse-proxy.c`: walks the rule list and
returns the first rule `r` with `strstr (url, r.path) == url`. -/
def reversepath_get (lst : List Reversepath) (url : List Char) :
    Option Reversepath :=
  match lst with
  | [] => none
  | r :: rest =>
    if strstr_index url r.path = some 0 then some r
    else reversepath_get rest url

/-- The rule table obtained by feeding a sequence of `(path, url)`
configuration pairs to `reversepath_add`, starting from the empty list. -/
def buildTable (calls : List (Option (List Char) × Option (List Char))) :
    List Reversepath :=
  calls.foldl (fun t pu => reversepath_add t pu.1 pu.2) []

/-- The observable outcome of one `reverse_rewrite_url` call: the returned
string (`none` models a NULL return), whether `indicate_http_error` was
invoked with status 400, and the value written to `connptr->reversepath`
(`none` = field not written). -/
structure RewriteResult where
  rewrite_url : Option (List Char)
  http_error : Bool
  reversepath_set : Option (List Char)
deriving DecidableEq

/-- The matching phase of `reverse_rewrite_url` (lines 105-138): computes
the local variables `rewrite_url` and `reverse` after the `if (*url == '/')`
block.  The second component models the `reverse` pointer: `none` means it
was never assigned (the `*url != '/'` case leaves it uninitialized),
`some none` means it was assigned NULL, `some (some r)` a real rule.
`rcookie` stands for the externally defined `REVERSE_COOKIE` name and
`cookie` for the result of the (case-insensitive) hashmap lookup of the
`cookie` header. -/
def rewriteStep (reversemagic : Bool) (rules : List Reversepath)
    (rcookie : List Char) (cookie : Option (List Char)) (url : List Char) :
    Option (List Char) × Option (Option Reversepath) :=
  if url.head? = some '/' then
    match reversepath_get rules url with
    | some rev => (some (rev.url ++ url.drop rev.path.length), some (some rev))
    | none =>
      match reversemagic, cookie with
      | true, some c =>
        match strstr_index c (rcookie ++ ['=']) with
        | some i =>
          match reversepath_get rules (c.drop (i + rcookie.length + 1)) with
          | some rev => (some (rev.url ++ url.drop 1), some (some rev))
          | none => (none, some none)
        | none => (none, some none)
      | _, _ => (none, some none)
  else (none, none)

/-- `reverse_rewrite_url` from `reverse-proxy.c`.  After the matching
phase, if `config.reverseonly` is set and no rewrite was produced the
function emits a 400 error and returns NULL; otherwise, when
`config.reversemagic` is set it executes
`connptr->reversepath = safestrdup (reverse->path)` — an expression that
dereferences `reverse` even when it is NULL or uninitialized, which the
embedding records as the overall result `none` (undefined behaviour). -/
def reverse_rewrite_url (reversemagic reverseonly : Bool)
    (rules : List Reversepath) (rcookie : List Char)
    (cookie : Option (List Char)) (url : List Char) :
    Option RewriteResult :=
  let s := rewriteStep reversemagic rules rcookie cookie url
  if reverseonly && s.1.isNone then some ⟨none, true, none⟩
  else if reversemagic then
    match s.2 with
    | some (some rev) => some ⟨s.1, false, some rev.path⟩
    | _ => none
  else some ⟨s.1, false, none⟩

/-! ## Socket layer (`sock.c`) -/

/-- One resolution candidate of `opensock` with the outcomes of the system
calls made on it: `sockfd` is the result of `socket()` (`none` = failure),
`bindOk a` whether `bind_socket` on this candidate's socket succeeds for
bind address `a`, and `connectOk` whether `connect()` succeeds. -/
structure Candidate where
  sockfd : Option Nat
  bindOk : List Char → Bool
  connectOk : Bool

/-- The candidate loop of `opensock` (lines 99-122 of `sock.c`).  Returns
the connected descriptor (`none` = all candidates exhausted) together with
the ordered list of addresses passed to `bind_socket`.  `bind_to` is the
explicit argument; `bind_address` models `config.bind_address`. -/
def opensock_loop (bind_to bind_address : Option (List Char)) :
    List Candidate → Option Nat × List (List Char)
  | [] => (none, [])
  | c :: rest =>
    match c.sockfd with
    | none => opensock_loop bind_to bind_address rest
    | some fd =>
      match bind_to with
      | some a =>
        if c.bindOk a then
          if c.connectOk then (some fd, [a])
          else
            let r := opensock_loop bind_to bind_address rest
            (r.1, a :: r.2)
        else
          let r := opensock_loop bind_to bind_address rest
          (r.1, a :: r.2)
      | none =>
        match bind_address with
        | some d =>
          if c.bindOk d then
            if c.connectOk then (some fd, [d])
            else
              let r := opensock_loop bind_to bind_address rest
              (r.1, d :: r.2)
          else
            let r := opensock_loop bind_to bind_address rest
            (r.1, d :: r.2)
        | none =>
          if c.connectOk then (some fd, [])
          else opensock_loop bind_to bind_address rest

/-- `opensock` from `sock.c`: `resolved` is the `getaddrinfo` outcome
(`none` = resolution failure, in which case the function returns -1 at
once, modelled as `none` with no bind attempts). -/
def opensock (resolved : Option (List Candidate))
    (bind_to bind_address : Option (List Char)) :
    Option Nat × List (List Char) :=
  match resolved with
  | none => (none, [])
  | some cands => opensock_loop bind_to bind_address cands

/-- A candidate on which all three steps of `opensock` succeed, given the
effective bind address (`none` = no binding requested). -/
def candSucceeds (eff : Option (List Char)) (c : Candidate) : Bool :=
  c.sockfd.isSome &&
    (match eff with
     | some a => c.bindOk a
     | none => true) &&
    c.connectOk

/-- The outcome of `getpeer_information`: the `int` return value and the
final contents of the two output buffers. -/
structure PeerInfoResult where
  ret : Int
  ipaddr : List Char
  string_addr : List Char
deriving DecidableEq

/-- The `"[unknown]"` sentinel copied into `string_addr`. -/
def unknownSentinel : List Char :=
  ['[', 'u', 'n', 'k', 'n', 'o', 'w', 'n', ']']

/-- `getpeer_information` from `sock.c`: sets the output buffers to their
defaults, then runs `getpeername` (`peer_ok`), `get_ip_string`
(`ip_string`, `none` = NULL return), and finally returns the result of
`getnameinfo` (`Except.ok h` = status 0 with hostname `h` written,
`Except.error e` = nonzero status `e`, buffer untouched). -/
def getpeer_information (peer_ok : Bool) (ip_string : Option (List Char))
    (nameinfo : Except Int (List Char)) : PeerInfoResult :=
  if !peer_ok then ⟨-1, [], unknownSentinel⟩
  else
    match ip_string with
    | none => ⟨-1, [], unknownSentinel⟩
    | some ip =>
      match nameinfo with
      | .ok h => ⟨0, ip, h⟩
      | .error e => ⟨e, ip, unknownSentinel⟩

/-! ## Basic lemmas -/

/-- `strstr (hay, needle) == hay` exactly when `needle` is a prefix of
`hay`: the anchored-match test used by `reversepath_get`. -/
theorem strstr_index_eq_zero_iff (hay needle : List Char) :
    strstr_index hay needle = some 0 ↔ needle.isPrefixOf hay = true := by
  rw [strstr_index.eq_def]
  by_cases hp : needle.isPrefixOf hay = true
  · simp [hp]
  · simp only [hp, if_false, iff_false, Bool.not_eq_true] at *
    simp only [hp, Bool.false_eq_true, if_false]
    cases hay with
    | nil => simp
    | cons a t => simp [Option.map_eq_some']

/-- `reversepath_get` is exactly a first-match scan for an anchored
(prefix) match. -/
theorem reversepath_get_eq_find (lst : List Reversepath) (url : List Char) :
    reversepath_get lst url =
      lst.find? (fun r => r.path.isPrefixOf url) := by
  induction lst with
  | nil => rfl
  | cons r rest ih =>
    rw [reversepath_get, List.find?_cons]
    by_cases h : r.path.isPrefixOf url = true
    · simp [h, (strstr_index_eq_zero_iff url r.path).mpr h]
    · have hz : ¬ strstr_index url r.path = some 0 := fun hc =>
        h ((strstr_index_eq_zero_iff url r.path).mp hc)
      simp [h, hz, ih]

/-! ## Claim theorems -/

/-- C1: for every table and request URL starting with `/` on which
`reversepath_get` returns a rule, `reverse_rewrite_url` returns
`rule.url ++ (url with its first `rule.path.length` characters removed)`
(with no error and, when magic-cookie mode is on, the rule's path
recorded); in particular when the URL equals the rule's path the
remainder is empty and the result is exactly the backend URL. -/
theorem claim_C1_direct_match (m o : Bool) (rules : List Reversepath)
    (rcookie : List Char) (cookie : Option (List Char)) (url : List Char)
    (rev : Reversepath)
    (hslash : url.head? = some '/')
    (hfind : reversepath_get rules url = some rev) :
    reverse_rewrite_url m o rules rcookie cookie url =
      some ⟨some (rev.url ++ url.drop rev.path.length), false,
            if m then some rev.path else none⟩ ∧
    (url = rev.path → rev.url ++ url.drop rev.path.length = rev.url) := by
  have hstep : rewriteStep m rules rcookie cookie url
      = (some (rev.url ++ url.drop rev.path.length), some (some rev)) := by
    simp [rewriteStep, hslash, hfind]
  constructor
  · cases m <;> simp [reverse_rewrite_url, hstep]
  · intro he
    subst he
    simp [List.drop_length]

/-- Witness for C1 at the spec's own example: rule `/foo → http://b/base`,
request `/foo/x`, rewritten to `http://b/base/x`. -/
theorem claim_C1_witness :
    reverse_rewrite_url false false
        [⟨"/foo".toList, "http://b/base".toList⟩]
        "tinyp".toList none "/foo/x".toList
      = some ⟨some "http://b/base/x".toList, false, none⟩ :=
  ((claim_C1_direct_match false false
      [⟨"/foo".toList, "http://b/base".toList⟩] "tinyp".toList none
      "/foo/x".toList ⟨"/foo".toList, "http://b/base".toList⟩
      (by decide) (by decide)).1).trans (by decide)

/-- C2: when the URL starts with `/`, has no direct match, magic-cookie
mode is on and the cookie header contains the `rcookie ++ "="` marker,
`reverse_rewrite_url` runs `reversepath_get` on everything after the
marker, and on a match composes `rule.url ++ url.drop 1` — stripping
exactly one leading character of the original URL, not the matched
rule's path length. -/
theorem claim_C2_cookie_fallback (o : Bool) (rules : List Reversepath)
    (rcookie c url : List Char) (i : Nat) (rev : Reversepath)
    (hslash : url.head? = some '/')
    (hnodirect : reversepath_get rules url = none)
    (hmarker : strstr_index c (rcookie ++ ['=']) = some i)
    (hfind : reversepath_get rules (c.drop (i + rcookie.length + 1))
               = some rev) :
    reverse_rewrite_url true o rules rcookie (some c) url =
      some ⟨some (rev.url ++ url.drop 1), false, some rev.path⟩ := by
  have hstep : rewriteStep true rules rcookie (some c) url
      = (some (rev.url ++ url.drop 1), some (some rev)) := by
    simp [rewriteStep, hslash, hnodirect, hmarker, hfind]
  simp [reverse_rewrite_url, hstep]

/-- Witness for C2 at the spec's own example: rule `/bar → http://b2/`,
cookie `tinyp=/bar`, request `/other`, rewritten to `http://b2/other`. -/
theorem claim_C2_witness :
    reverse_rewrite_url true false [⟨"/bar".toList, "http://b2/".toList⟩]
        "tinyp".toList (some "tinyp=/bar".toList) "/other".toList
      = some ⟨some "http://b2/other".toList, false, some "/bar".toList⟩ :=
  (claim_C2_cookie_fallback false [⟨"/bar".toList, "http://b2/".toList⟩]
      "tinyp".toList "tinyp=/bar".toList "/other".toList 0
      ⟨"/bar".toList, "http://b2/".toList⟩
      (by decide) (by decide) (by decide) (by decide)).trans (by decide)

/-- A rule added by `reversepath_add (some p) (some u)` with valid inputs
sits at the head of the resulting list. -/
theorem reversepath_add_valid (lst : List Reversepath) (p u : List Char)
    (hp : p.head? = some '/')
    (hu : (strstr_index u schemeSep).isSome = true) :
    reversepath_add lst (some p) (some u) = ⟨p, u⟩ :: lst := by
  obtain ⟨v, hv⟩ := Option.isSome_iff_exists.mp hu
  simp [reversepath_add, hv, hp]

/-- C3: `reversepath_get` is a first-match scan in list order — and the
list is kept most-recently-added first — for a byte-wise prefix of the
URL anchored at offset 0, returning `none` when no rule's path is such a
prefix; in particular after adding two valid rules with the same path in
the order R1 then R2, it returns R2. -/
theorem claim_C3_first_match_recency :
    (∀ (rules : List Reversepath) (url : List Char),
        reversepath_get rules url
          = rules.find? (fun r => r.path.isPrefixOf url)) ∧
    (∀ (rules : List Reversepath) (p u1 u2 : List Char),
        p.head? = some '/' →
        (strstr_index u1 schemeSep).isSome = true →
        (strstr_index u2 schemeSep).isSome = true →
        reversepath_get
            (reversepath_add (reversepath_add rules (some p) (some u1))
              (some p) (some u2)) p
          = some ⟨p, u2⟩) := by
  refine ⟨reversepath_get_eq_find, ?_⟩
  intro rules p u1 u2 hp h1 h2
  rw [reversepath_add_valid _ _ _ hp h1, reversepath_add_valid _ _ _ hp h2,
    reversepath_get]
  have : strstr_index p p = some 0 :=
    (strstr_index_eq_zero_iff p p).mpr (by simp [List.isPrefixOf_iff_prefix])
  simp [this]

/-- Witness for C3: two rules for path `/s`, the later one wins. -/
theorem claim_C3_witness :
    reversepath_get
        (reversepath_add
          (reversepath_add [] (some "/s".toList) (some "http://one/".toList))
          (some "/s".toList) (some "http://two/".toList)) "/s".toList
      = some ⟨"/s".toList, "http://two/".toList⟩ :=
  claim_C3_first_match_recency.2 [] "/s".toList "http://one/".toList
    "http://two/".toList (by decide) (by decide) (by decide)

/-- Membership in the list produced by `reversepath_add` comes either
from the old list or from a rule that passed both validations. -/
theorem mem_reversepath_add {r : Reversepath} {lst : List Reversepath}
    {p u : Option (List Char)} (h : r ∈ reversepath_add lst p u) :
    r ∈ lst ∨ (r.path.head? = some '/' ∧
      (strstr_index r.url schemeSep).isSome = true) := by
  cases u with
  | none => exact Or.inl h
  | some uu =>
    simp only [reversepath_add] at h
    by_cases hsep : (strstr_index uu schemeSep).isNone = true
    · rw [if_pos hsep] at h
      exact Or.inl h
    · rw [if_neg hsep] at h
      have husome : (strstr_index uu schemeSep).isSome = true := by
        cases hx : strstr_index uu schemeSep with
        | none => exact absurd (by simp [hx]) hsep
        | some v => simp
      cases p with
      | none =>
        have h' : r ∈ (⟨['/'], uu⟩ : Reversepath) :: lst := h
        rcases List.mem_cons.mp h' with he | hm
        · subst he
          exact Or.inr ⟨rfl, husome⟩
        · exact Or.inl hm
      | some pp =>
        have h' : r ∈ (if pp.head? ≠ some '/' then lst
            else (⟨pp, uu⟩ : Reversepath) :: lst) := h
        by_cases hpp : pp.head? ≠ some '/'
        · rw [if_pos hpp] at h'
          exact Or.inl h'
        · rw [if_neg hpp] at h'
          rcases List.mem_cons.mp h' with he | hm
          · subst he
            exact Or.inr ⟨not_not.mp hpp, husome⟩
          · exact Or.inl hm

/-- Every rule of a table built from any sequence of `reversepath_add`
calls has a path starting with `/` and a url containing `://`. -/
theorem buildTable_invariant
    (calls : List (Option (List Char) × Option (List Char))) :
    ∀ r ∈ buildTable calls, r.path.head? = some '/' ∧
      (strstr_index r.url schemeSep).isSome = true := by
  suffices h : ∀ init : List Reversepath,
      (∀ r ∈ init, r.path.head? = some '/' ∧
        (strstr_index r.url schemeSep).isSome = true) →
      ∀ r ∈ calls.foldl (fun t pu => reversepath_add t pu.1 pu.2) init,
        r.path.head? = some '/' ∧
          (strstr_index r.url schemeSep).isSome = true by
    exact h [] (by simp)
  induction calls with
  | nil => intro init hinit; simpa using hinit
  | cons c rest ih =>
    intro init hinit
    simp only [List.foldl_cons]
    refine ih _ ?_
    intro r hr
    rcases mem_reversepath_add hr with hm | hv
    · exact hinit r hm
    · exact hv

/-- C4: the table invariant.  Every stored rule has a path starting with
`/` and a url containing `://`; an absent url, a url without `://`, or a
present path not starting with `/` leaves the table unchanged; an absent
path is normalized to `/`; and `reversepath_get` only ever returns a
member of the table, hence never a rejected rule. -/
theorem claim_C4_validation :
    (∀ calls, ∀ r ∈ buildTable calls, r.path.head? = some '/' ∧
        (strstr_index r.url schemeSep).isSome = true) ∧
    (∀ (lst : List Reversepath) (p : Option (List Char)),
        reversepath_add lst p none = lst) ∧
    (∀ (lst : List Reversepath) (p : Option (List Char)) (u : List Char),
        strstr_index u schemeSep = none →
        reversepath_add lst p (some u) = lst) ∧
    (∀ (lst : List Reversepath) (p u : List Char),
        p.head? ≠ some '/' → reversepath_add lst (some p) (some u) = lst) ∧
    (∀ (lst : List Reversepath) (u : List Char),
        (strstr_index u schemeSep).isSome = true →
        reversepath_add lst none (some u) = ⟨['/'], u⟩ :: lst) ∧
    (∀ (rules : List Reversepath) (url : List Char) (r : Reversepath),
        reversepath_get rules url = some r → r ∈ rules) := by
  refine ⟨buildTable_invariant, fun lst p => rfl, ?_, ?_, ?_, ?_⟩
  · intro lst p u hu
    simp [reversepath_add, hu]
  · intro lst p u hp
    by_cases hsep : (strstr_index u schemeSep).isNone = true
    · simp [reversepath_add, hsep]
    · simp [reversepath_add, hsep, hp]
  · intro lst u hu
    obtain ⟨v, hv⟩ := Option.isSome_iff_exists.mp hu
    simp [reversepath_add, hv]
  · intro rules url r h
    rw [reversepath_get_eq_find] at h
    exact List.mem_of_find?_eq_some h

/-- Witness for C4: a table built from one invalid and one path-less call
holds exactly the normalized rule, whose fields satisfy the invariant. -/
theorem claim_C4_witness :
    (⟨['/'], "http://ok/".toList⟩ : Reversepath).path.head? = some '/' ∧
      (strstr_index (⟨['/'], "http://ok/".toList⟩ : Reversepath).url
        schemeSep).isSome = true :=
  claim_C4_validation.1
    [(some "bad".toList, some "http://no/".toList),
     (none, some "http://ok/".toList)]
    ⟨['/'], "http://ok/".toList⟩ (by decide)

/-- C5 (code bug): at the failing input — no matching rule, reverse-only
off — the function passes the URL through only while magic-cookie mode is
off; with magic-cookie mode on it reaches
`connptr->reversepath = safestrdup (reverse->path)` with `reverse == NULL`
and crashes (modelled as `none`) instead of returning "no rewrite".
The rejection side behaves as claimed: with reverse-only on the same
input yields the 400 rejection. -/
theorem claim_C5_no_match_outcomes :
    reverse_rewrite_url false false [] "tinyp".toList none "/zzz".toList
        = some ⟨none, false, none⟩ ∧
    reverse_rewrite_url true false [] "tinyp".toList none "/zzz".toList
        = none ∧
    reverse_rewrite_url false true [] "tinyp".toList none "/zzz".toList
        = some ⟨none, true, none⟩ ∧
    reverse_rewrite_url true true [] "tinyp".toList none "/zzz".toList
        = some ⟨none, true, none⟩ := by
  decide

/-- C6 counterexample: a request URL not beginning with `/`
(`http://x/`), empty table, reverse-only on: the code emits the 400
rejection, it does not pass the URL through untouched. -/
theorem claim_C6_counterexample :
    reverse_rewrite_url false true [] "tinyp".toList none
        "http://x/".toList = some ⟨none, true, none⟩ ∧
    ¬ reverse_rewrite_url false true [] "tinyp".toList none
        "http://x/".toList = some ⟨none, false, none⟩ := by
  decide

/-- C6 (amended): a request URL not beginning with `/` is never
rewritten; it is rejected with the 400 error when reverse-only mode is
on, passed through untouched when both reverse-only and magic-cookie
modes are off, and with magic-cookie on (reverse-only off) the recording
step dereferences the uninitialized `reverse` pointer (modelled `none`). -/
theorem claim_C6_amended (m o : Bool) (rules : List Reversepath)
    (rcookie : List Char) (cookie : Option (List Char)) (url : List Char)
    (h : url.head? ≠ some '/') :
    reverse_rewrite_url m o rules rcookie cookie url
      = if o then some ⟨none, true, none⟩
        else if m then none
        else some ⟨none, false, none⟩ := by
  have hstep : rewriteStep m rules rcookie cookie url = (none, none) := by
    simp [rewriteStep, h]
  cases o <;> cases m <;> simp [reverse_rewrite_url, hstep]

/-- Witness for C6 (amended) on an absolute-URI request with both flags
off: clean pass-through. -/
theorem claim_C6_witness :
    reverse_rewrite_url false false [] "tinyp".toList none
        "https://y/".toList = some ⟨none, false, none⟩ :=
  (claim_C6_amended false false [] "tinyp".toList none "https://y/".toList
    (by decide)).trans (by decide)

/-- C7 (code bug): with magic-cookie mode on, when no rule was produced
the recording step still dereferences the rule pointer — the call
crashes (modelled `none`) instead of leaving the connection field
unchanged; when a rule was produced the field is set to that rule's
path, as the claim states. -/
theorem claim_C7_record_step :
    reverse_rewrite_url true false [] "tinyp".toList none "/x".toList
        = none ∧
    reverse_rewrite_url true false [⟨"/x".toList, "http://b/".toList⟩]
        "tinyp".toList none "/x".toList
      = some ⟨some "http://b/".toList, false, some "/x".toList⟩ ∧
    reverse_rewrite_url false false [⟨"/x".toList, "http://b/".toList⟩]
        "tinyp".toList none "/x".toList
      = some ⟨some "http://b/".toList, false, none⟩ := by
  decide

/-- With an explicit bind argument, the candidate loop returns the first
fully succeeding candidate's descriptor. -/
theorem opensock_loop_fst_explicit (a : List Char) (ba : Option (List Char))
    (cands : List Candidate) :
    (opensock_loop (some a) ba cands).1
      = (cands.find? (candSucceeds (some a))).bind Candidate.sockfd := by
  induction cands with
  | nil => rfl
  | cons c rest ih =>
    rw [opensock_loop, List.find?_cons]
    cases hsf : c.sockfd with
    | none => simp [candSucceeds, hsf, ih]
    | some fd =>
      by_cases hb : c.bindOk a <;> by_cases hc : c.connectOk <;>
        simp [candSucceeds, hsf, hb, hc, ih]

/-- With no explicit bind argument but a process-wide default, the
candidate loop returns the first fully succeeding candidate's
descriptor. -/
theorem opensock_loop_fst_default (d : List Char) (cands : List Candidate) :
    (opensock_loop none (some d) cands).1
      = (cands.find? (candSucceeds (some d))).bind Candidate.sockfd := by
  induction cands with
  | nil => rfl
  | cons c rest ih =>
    rw [opensock_loop, List.find?_cons]
    cases hsf : c.sockfd with
    | none => simp [candSucceeds, hsf, ih]
    | some fd =>
      by_cases hb : c.bindOk d <;> by_cases hc : c.connectOk <;>
        simp [candSucceeds, hsf, hb, hc, ih]

/-- With no bind address at all, the candidate loop returns the first
candidate whose socket creation and connect both succeed. -/
theorem opensock_loop_fst_nobind (cands : List Candidate) :
    (opensock_loop none none cands).1
      = (cands.find? (candSucceeds none)).bind Candidate.sockfd := by
  induction cands with
  | nil => rfl
  | cons c rest ih =>
    rw [opensock_loop, List.find?_cons]
    cases hsf : c.sockfd with
    | none => simp [candSucceeds, hsf, ih]
    | some fd =>
      by_cases hc : c.connectOk <;> simp [candSucceeds, hsf, hc, ih]

/-- C8: `opensock` iterates the resolved candidates in order, skipping a
candidate whenever its socket creation, bind, or connect fails, and its
return value is exactly the descriptor of the first candidate on which
every step succeeds — `none` (the -1 error) only when resolution failed
or all candidates are exhausted. -/
theorem claim_C8_candidate_fallback (resolved : Option (List Candidate))
    (bind_to bind_address : Option (List Char)) :
    (opensock resolved bind_to bind_address).1
      = (resolved.bind fun cands =>
          cands.find? (candSucceeds
            (match bind_to with
             | some a => some a
             | none => bind_address))).bind Candidate.sockfd := by
  cases resolved with
  | none => rfl
  | some cands =>
    cases bind_to with
    | some a => simpa using opensock_loop_fst_explicit a bind_address cands
    | none =>
      cases bind_address with
      | some d => simpa using opensock_loop_fst_default d cands
      | none => simpa using opensock_loop_fst_nobind cands

/-- When an explicit bind argument is given, the result of the candidate
loop does not depend on the process-wide default bind address at all. -/
theorem opensock_loop_config_irrelevant (a : List Char)
    (ba ba' : Option (List Char)) (cands : List Candidate) :
    opensock_loop (some a) ba cands = opensock_loop (some a) ba' cands := by
  induction cands with
  | nil => rfl
  | cons c rest ih =>
    rw [opensock_loop, opensock_loop]
    cases hsf : c.sockfd with
    | none => exact ih
    | some fd =>
      by_cases hb : c.bindOk a <;> by_cases hc : c.connectOk <;>
        simp [hb, hc, ih]

/-- With an explicit bind argument, every address ever passed to
`bind_socket` is that argument. -/
theorem opensock_loop_trace_explicit (a : List Char)
    (ba : Option (List Char)) (cands : List Candidate) :
    ∀ x ∈ (opensock_loop (some a) ba cands).2, x = a := by
  induction cands with
  | nil => intro x hx; simp [opensock_loop] at hx
  | cons c rest ih =>
    intro x hx
    rw [opensock_loop] at hx
    cases hsf : c.sockfd with
    | none =>
      rw [hsf] at hx
      exact ih x hx
    | some fd =>
      rw [hsf] at hx
      by_cases hb : c.bindOk a
      · by_cases hc : c.connectOk
        · simp [hb, hc] at hx
          exact hx
        · simp [hb, hc] at hx
          rcases hx with hx | hx
          · exact hx
          · exact ih x hx
      · simp [hb] at hx
        rcases hx with hx | hx
        · exact hx
        · exact ih x hx

/-- Without an explicit bind argument, every address ever passed to
`bind_socket` is the process-wide default. -/
theorem opensock_loop_trace_default (d : List Char)
    (cands : List Candidate) :
    ∀ x ∈ (opensock_loop none (some d) cands).2, x = d := by
  induction cands with
  | nil => intro x hx; simp [opensock_loop] at hx
  | cons c rest ih =>
    intro x hx
    rw [opensock_loop] at hx
    cases hsf : c.sockfd with
    | none =>
      rw [hsf] at hx
      exact ih x hx
    | some fd =>
      rw [hsf] at hx
      by_cases hb : c.bindOk d
      · by_cases hc : c.connectOk
        · simp [hb, hc] at hx
          exact hx
        · simp [hb, hc] at hx
          rcases hx with hx | hx
          · exact hx
          · exact ih x hx
      · simp [hb] at hx
        rcases hx with hx | hx
        · exact hx
        · exact ih x hx

/-- C10: when an explicit local bind address is supplied, `opensock` uses
it alone — its whole outcome (descriptor and bind attempts) is
independent of the process-wide default, and every bind attempt targets
the explicit address; the process-wide default is bound to only when the
explicit argument is absent. -/
theorem claim_C10_bind_source (cands : List Candidate) (a d : List Char)
    (ba ba' : Option (List Char)) :
    (opensock (some cands) (some a) ba
        = opensock (some cands) (some a) ba') ∧
    (∀ x ∈ (opensock (some cands) (some a) ba).2, x = a) ∧
    (∀ x ∈ (opensock (some cands) none (some d)).2, x = d) :=
  ⟨opensock_loop_config_irrelevant a ba ba' cands,
   opensock_loop_trace_explicit a ba cands,
   opensock_loop_trace_default d cands⟩

/-- Witness for C10: a candidate that binds but fails to connect makes
one bind attempt to the explicit address; the default is irrelevant. -/
theorem claim_C10_witness :
    (opensock (some [⟨some 3, fun _ => true, false⟩]) (some ['a'])
        (some ['b'])
      = opensock (some [⟨some 3, fun _ => true, false⟩]) (some ['a'])
          none) ∧
    (['a'] : List Char) = ['a'] :=
  ⟨(claim_C10_bind_source [⟨some 3, fun _ => true, false⟩] ['a'] ['b']
      (some ['b']) none).1,
   (claim_C10_bind_source [⟨some 3, fun _ => true, false⟩] ['a'] ['b']
      (some ['b']) none).2.1 ['a'] (by decide)⟩

/-- C9 counterexample: when `getpeername` and `get_ip_string` both
succeed but `getnameinfo` fails with status 2, `getpeer_information`
returns that nonzero status — an error return even though the numeric
peer-address retrieval succeeded (the buffers do hold the numeric
address and the sentinel). -/
theorem claim_C9_counterexample :
    (getpeer_information true (some "9.8.7.6".toList)
        (Except.error 2)).ret ≠ 0 ∧
    getpeer_information true (some "9.8.7.6".toList) (Except.error 2)
      = ⟨2, "9.8.7.6".toList, unknownSentinel⟩ := by
  decide

/-- C9 (amended): the hostname buffer is set to `"[unknown]"` before any
lookup, so both early failures return -1 with the sentinel intact; on a
reverse-lookup failure the numeric address is still written and the
sentinel kept, but the function propagates `getnameinfo`'s nonzero
status as its return value instead of succeeding. -/
theorem claim_C9_peerinfo (ips : Option (List Char))
    (ni : Except Int (List Char)) (ip h : List Char) (e : Int) :
    getpeer_information false ips ni = ⟨-1, [], unknownSentinel⟩ ∧
    getpeer_information true none ni = ⟨-1, [], unknownSentinel⟩ ∧
    getpeer_information true (some ip) (Except.ok h) = ⟨0, ip, h⟩ ∧
    getpeer_information true (some ip) (Except.error e)
      = ⟨e, ip, unknownSentinel⟩ :=
  ⟨rfl, rfl, rfl, rfl⟩

end Tinyproxy
